import Mathlib

/-!
Verification of the CP2K integration-grid / cutoff sweep optimizer
(`scripts/CP2K/integration_grid_optimizer.py`, with the convergence check
shared by `scripts/CP2K/optimize_interaction_cutoff.py`).

The Python code is embedded shallowly:

* Python floats are modelled as `ℚ` (the decision logic uses only exact
  comparison, subtraction and division).
* Python dictionaries keyed by strings are modelled as association lists
  (`PyDict`), with lookup raising `KeyError` when the key is absent, exactly
  as `dict.__getitem__` does.
* Python runtime failures (`sys.exit`, `KeyError`, `IndexError`,
  `ValueError`, `UnboundLocalError`) are modelled as values of `PyErr`, and
  fallible code returns `Except PyErr _`.
* The external simulation engine (`self.calculator.run()` together with the
  observable extraction of `_fetch_properties`) is abstracted as a function
  `engine : PyDict ℚ → ℚ × ℚ` from the current `MGRID` settings to the
  `(energy, force)` sample that `_fetch_properties` would return.  The
  artifact-parsing functions `_read_energy` / `_read_forces` /
  `_get_force_file` are embedded separately over explicit line lists.
-/

/-- Python runtime failures that the embedded code can raise. -/
inductive PyErr where
  /-- Model of `sys.exit(code)` -/
  | sysExit (code : Nat)
  /-- Model of `KeyError` on a dict lookup -/
  | keyError (key : String)
  /-- Model of `IndexError` on list indexing -/
  | indexError
  /-- Model of `ValueError`, e.g. from `float(...)` on a non-numeric token -/
  | valueError
  /-- Model of `UnboundLocalError`: a local variable read before any assignment -/
  | unboundLocal
  deriving Repr, DecidableEq

/-- A Python `dict` with string keys, as an insertion-ordered association list. -/
abbrev PyDict (α : Type) := List (String × α)

/-- Model of `d[k]` as an `Option` (the raw lookup underlying `dict.__getitem__`). -/
def dictGet {α : Type} (d : PyDict α) (k : String) : Option α :=
  (d.find? fun kv => kv.1 == k).map (·.2)

/-- Model of `d[k]`, raising `KeyError` when the key is absent, as `dict.__getitem__`. -/
def dictGetE {α : Type} (d : PyDict α) (k : String) : Except PyErr α :=
  match dictGet d k with
  | some v => .ok v
  | none => .error (.keyError k)

/-- Model of `d[k] = v`: replace the entry for `k` if present, else append it. -/
def dictSet {α : Type} : PyDict α → String → α → PyDict α
  | [], k, v => [(k, v)]
  | (k', v') :: rest, k, v =>
    if k' == k then (k, v) :: rest else (k', v') :: dictSet rest k v

/-- Model of `np.diff` of a 1-d sequence: consecutive differences `l[i+1] - l[i]`. -/
def np_diff : List ℚ → List ℚ
  | a :: b :: rest => (b - a) :: np_diff (b :: rest)
  | _ => []

/-- Python `l[-1]`: the last element, `IndexError` on an empty list. -/
def pyIdxNeg1 (l : List ℚ) : Except PyErr ℚ :=
  match l.getLast? with
  | some x => .ok x
  | none => .error .indexError

/-- Python `l[-2]`: the second-to-last element, `IndexError` when `len(l) < 2`. -/
def pyIdxNeg2 (l : List ℚ) : Except PyErr ℚ :=
  match l.reverse with
  | _ :: x :: _ => .ok x
  | _ => .error .indexError

/-- Python `l[0]`: the first element, `IndexError` on an empty list. -/
def pyIdx0 (l : List ℚ) : Except PyErr ℚ :=
  match l with
  | [] => .error .indexError
  | x :: _ => .ok x

/-- The most recent first-difference of a sequence (the final entry of
`np.diff`), `0` when the sequence has fewer than two entries.  Used to state
properties of `check_progress`. -/
def lastDelta (l : List ℚ) : ℚ :=
  match l.reverse with
  | a :: b :: _ => a - b
  | _ => 0

/-- The mutable state of an `IntegrationGridOptimizer` that the sweep logic
touches: the `MGRID` section fields written by `_update_property`, the
candidate ranges `loop_range`, and the per-parameter observable histories
`energy_array` / `force_array`. -/
structure OptState where
  m_grid : PyDict ℚ
  loop_range : PyDict (List ℚ)
  energy_array : PyDict (List ℚ)
  force_array : PyDict (List ℚ)
  deriving Repr

/-- The state right after `IntegrationGridOptimizer.__init__`: `loop_range`,
`force_array` and `energy_array` are all created as empty dicts (lines
100-102), and no `MGRID` cutoff field has been written yet. -/
def initState : OptState := ⟨[], [], [], []⟩

/-- Embedding of `_update_property`: write each key/value pair of `updater` into the
`MGRID` section (`self.m_grid.__dict__[item] = updater[item]`). -/
def update_property (st : OptState) (updater : PyDict ℚ) : OptState :=
  { st with m_grid := updater.foldl (fun g kv => dictSet g kv.1 kv.2) st.m_grid }

/-- Embedding of `_update_property_arrays`: append the newest `(energy, force)` sample to
the per-parameter history lists.  The sample is the pair that
`_fetch_properties` would return; the dict lookups
`self.energy_array[optimized_parameter]` / `self.force_array[...]` raise
`KeyError` when the parameter has no entry. -/
def update_property_arrays (p : String) (sample : ℚ × ℚ) (st : OptState) :
    Except PyErr OptState :=
  match dictGetE st.energy_array p with
  | .error e => .error e
  | .ok es =>
    match dictGetE st.force_array p with
    | .error e => .error e
    | .ok fs =>
      .ok { st with
              energy_array := dictSet st.energy_array p (es ++ [sample.1]),
              force_array := dictSet st.force_array p (fs ++ [sample.2]) }

/-- Embedding of `_check_progress`: returns `0` when fewer than two samples are recorded,
otherwise `0` iff the last energy difference is truthy (non-zero) and the
last force difference is strictly below the tolerance, else `1`.  (Per the
source docstring, `1` means "continue", `0` means "the analysis is
complete".) -/
def check_progress (tol : ℚ) (p : String) (st : OptState) : Except PyErr Nat :=
  match dictGetE st.energy_array p with
  | .error e => .error e
  | .ok es =>
    if es.length < 2 then .ok 0
    else
      match dictGetE st.force_array p with
      | .error e => .error e
      | .ok fs =>
        match pyIdxNeg1 (np_diff es), pyIdxNeg1 (np_diff fs) with
        | .ok ed, .ok fd => if ed ≠ 0 ∧ fd < tol then .ok 0 else .ok 1
        | .error e, _ => .error e
        | _, .error e => .error e

/-- The common body of `_run_cutoff_optimization`, `_run_rel_cutoff_optimization`
and `_run_n_grids_optimization`: sweep the candidate list, updating parameter
`pset`, running the engine, appending the sample, and checking progress under
key `pchk` (`pchk = pset` except in the ngrids stage, whose source passes the
misspelled key `'nNrids'`).  On `_check_progress ≠ 1` the loop writes
`self.energy_array[pset][-2]` into the parameter and breaks. -/
def run_param_loop (engine : PyDict ℚ → ℚ × ℚ) (tol : ℚ) (pset pchk : String) :
    List ℚ → OptState → Except PyErr OptState
  | [], st => .ok st
  | item :: rest, st =>
    let st1 := update_property st [(pset, item)]
    match update_property_arrays pset (engine st1.m_grid) st1 with
    | .error e => .error e
    | .ok st2 =>
      match check_progress tol pchk st2 with
      | .error e => .error e
      | .ok r =>
        if r = 1 then run_param_loop engine tol pset pchk rest st2
        else
          match dictGetE st2.energy_array pset with
          | .error e => .error e
          | .ok es =>
            match pyIdxNeg2 es with
            | .error e => .error e
            | .ok v => .ok (update_property st2 [(pset, v)])

/-- Embedding of `_run_cutoff_optimization`: sweep `self.loop_range['Cutoff']`. -/
def run_cutoff_optimization (engine : PyDict ℚ → ℚ × ℚ) (tol : ℚ)
    (st : OptState) : Except PyErr OptState :=
  match dictGetE st.loop_range "Cutoff" with
  | .error e => .error e
  | .ok cs => run_param_loop engine tol "Cutoff" "Cutoff" cs st

/-- Embedding of `_run_rel_cutoff_optimization`: sweep `self.loop_range['Rel_cutoff']`. -/
def run_rel_cutoff_optimization (engine : PyDict ℚ → ℚ × ℚ) (tol : ℚ)
    (st : OptState) : Except PyErr OptState :=
  match dictGetE st.loop_range "Rel_cutoff" with
  | .error e => .error e
  | .ok cs => run_param_loop engine tol "Rel_cutoff" "Rel_cutoff" cs st

/-- Embedding of `_run_n_grids_optimization`: sweep `self.loop_range['Ngrids']`, but check
progress under the misspelled key `'nNrids'` as in the source. -/
def run_n_grids_optimization (engine : PyDict ℚ → ℚ × ℚ) (tol : ℚ)
    (st : OptState) : Except PyErr OptState :=
  match dictGetE st.loop_range "Ngrids" with
  | .error e => .error e
  | .ok cs => run_param_loop engine tol "Ngrids" "nNrids" cs st

/-- Helper: a sweep stage started (as the spec's stage start prescribes) with
an empty history for its parameter stops during its very first candidate: the
single-sample history makes `_check_progress` return `0`, the loop takes the
stop branch, and the `[-2]` access fails. -/
theorem run_param_loop_first_candidate_stops
    (engine : PyDict ℚ → ℚ × ℚ) (tol : ℚ) (p : String) (c : ℚ) (cs : List ℚ)
    (mg : PyDict ℚ) (lr : PyDict (List ℚ)) :
    run_param_loop engine tol p p (c :: cs) ⟨mg, lr, [(p, [])], [(p, [])]⟩ =
      .error .indexError := by
  simp [run_param_loop, update_property, update_property_arrays, check_progress,
    dictGetE, dictGet, dictSet, pyIdxNeg2, List.find?]

/-- The last entry of `np.diff` of a sequence with at least two entries is the
difference of its last two entries. -/
theorem lastDelta_cons (x : ℚ) (L : List ℚ) (hL : 2 ≤ L.length) :
    lastDelta (x :: L) = lastDelta L := by
  obtain ⟨u, v, t, h⟩ : ∃ u v t, L.reverse = u :: v :: t := by
    match hrev : L.reverse with
    | [] =>
      have hlen : L.length ≤ 1 := by rw [← List.length_reverse, hrev]; simp
      omega
    | [u] =>
      have hlen : L.length ≤ 1 := by rw [← List.length_reverse, hrev]; simp
      omega
    | u :: v :: t => exact ⟨u, v, t, rfl⟩
  have hx : (x :: L).reverse = u :: v :: (t ++ [x]) := by
    rw [List.reverse_cons, h]
    simp
  simp [lastDelta, hx, h]

theorem np_diff_getLast (l : List ℚ) (a b : ℚ) :
    (np_diff (a :: b :: l)).getLast? = some (lastDelta (a :: b :: l)) := by
  induction l generalizing a b with
  | nil => simp [np_diff, lastDelta]
  | cons c t ih =>
    have h1 : np_diff (a :: b :: c :: t) = (b - a) :: np_diff (b :: c :: t) := rfl
    have h2 : np_diff (b :: c :: t) = (c - b) :: np_diff (c :: t) := rfl
    have h3 : lastDelta (a :: b :: c :: t) = lastDelta (b :: c :: t) :=
      lastDelta_cons a (b :: c :: t) (by simp)
    rw [h1, h2, List.getLast?_cons_cons, ← h2, ih, h3]

/-- The value `en_diff[-1]` (resp. `fr_diff[-1]`) in `_check_progress` is exactly the
most recent first-difference. -/
theorem pyIdxNeg1_np_diff (l : List ℚ) (hl : 2 ≤ l.length) :
    pyIdxNeg1 (np_diff l) = .ok (lastDelta l) := by
  match l, hl with
  | a :: b :: t, _ => rw [pyIdxNeg1, np_diff_getLast]

/-- C1.  For a history with fewer than two samples (`[]` or `[e]`),
`_check_progress` returns `0` — which per its own docstring means "the
analysis is complete" and which the sweep loops treat as the stop signal —
so a stage started with an empty history stops inside its very first
candidate (and then crashes on the `[-2]` access) instead of dispatching at
least two candidates.  This refutes the claim that short histories report
not-converged. -/
theorem check_progress_short_history_stops_sweep
    (tol : ℚ) (p : String) (mg : PyDict ℚ) (lr : PyDict (List ℚ))
    (e : ℚ) (fs fs' : List ℚ)
    (engine : PyDict ℚ → ℚ × ℚ) (c : ℚ) (cs : List ℚ) :
    check_progress tol p ⟨mg, lr, [(p, [])], [(p, fs)]⟩ = .ok 0 ∧
    check_progress tol p ⟨mg, lr, [(p, [e])], [(p, fs')]⟩ = .ok 0 ∧
    run_param_loop engine tol p p (c :: cs) ⟨mg, lr, [(p, [])], [(p, [])]⟩ =
      .error .indexError := by
  refine ⟨?_, ?_, run_param_loop_first_candidate_stops engine tol p c cs mg lr⟩ <;>
    simp [check_progress, dictGetE, dictGet, List.find?]

/-- The engine of the spec's acceptance scenario for claim C2: candidates
`[100, 200, 300, 400]`, samples whose force delta first drops below the
tolerance `0.002` after the 3rd candidate. -/
def specEngine : PyDict ℚ → ℚ × ℚ := fun mg =>
  match dictGet mg "Cutoff" with
  | none => (0, 0)
  | some c =>
    if c = 100 then (-10, 10)
    else if c = 200 then (-11, 9)
    else if c = 300 then (-23/2, 89999/10000)
    else (-58/5, 89998/10000)

/-- C2.  Running the cutoff sweep on the spec's scenario — candidate list
`[100, 200, 300, 400]` with an empty stage-start history and samples whose
force delta first drops below tolerance after the 3rd candidate — does not
produce `accepted_value = 200`: the loop stops during the 1st candidate
(`_check_progress` returns `0` on the single-sample history) and raises
`IndexError` on `self.energy_array['Cutoff'][-2]`.  Moreover the value the
break branch writes is an entry of `energy_array` (an energy), not a
candidate. -/
theorem spec_scenario_never_accepts_second_to_last :
    run_param_loop specEngine (1/500) "Cutoff" "Cutoff" [100, 200, 300, 400]
      ⟨[], [], [("Cutoff", [])], [("Cutoff", [])]⟩ = .error .indexError :=
  run_param_loop_first_candidate_stops specEngine (1/500) "Cutoff" 100
    [200, 300, 400] [] []

/-- C3.  With at least two recorded samples, `_check_progress` reports
convergence (`0`) exactly when the most recent energy delta is non-zero
(truthy) and the most recent force delta is strictly below the tolerance;
in particular a history whose consecutive energy values are all equal (all
energy deltas zero) reports `1` (not converged) regardless of the force
history. -/
theorem check_progress_converged_iff
    (tol : ℚ) (p : String) (mg : PyDict ℚ) (lr : PyDict (List ℚ))
    (es fs : List ℚ) (he : 2 ≤ es.length) (hf : 2 ≤ fs.length) :
    (check_progress tol p ⟨mg, lr, [(p, es)], [(p, fs)]⟩ = .ok 0 ↔
      (lastDelta es ≠ 0 ∧ lastDelta fs < tol)) ∧
    (List.Chain' (· = ·) es →
      check_progress tol p ⟨mg, lr, [(p, es)], [(p, fs)]⟩ = .ok 1) := by
  have hstep : check_progress tol p ⟨mg, lr, [(p, es)], [(p, fs)]⟩ =
      if lastDelta es ≠ 0 ∧ lastDelta fs < tol then .ok 0 else .ok 1 := by
    rw [check_progress]
    simp only [dictGetE, dictGet, List.find?, beq_self_eq_true, Option.map_some']
    rw [if_neg (by omega), pyIdxNeg1_np_diff es he, pyIdxNeg1_np_diff fs hf]
  constructor
  · rw [hstep]
    by_cases hc : lastDelta es ≠ 0 ∧ lastDelta fs < tol <;> simp [hc]
  · intro hch
    have hzero : lastDelta es = 0 := by
      obtain ⟨u, v, t, hrev⟩ : ∃ u v t, es.reverse = u :: v :: t := by
        match hrev : es.reverse with
        | [] =>
          have hlen : es.length ≤ 1 := by rw [← List.length_reverse, hrev]; simp
          omega
        | [u] =>
          have hlen : es.length ≤ 1 := by rw [← List.length_reverse, hrev]; simp
          omega
        | u :: v :: t => exact ⟨u, v, t, rfl⟩
      have hch' : List.Chain' (fun a b : ℚ => b = a) es :=
        hch.imp fun a b h => h.symm
      have hrevch : List.Chain' (· = ·) es.reverse := by
        rw [List.chain'_reverse]
        exact hch'
      rw [hrev, List.chain'_cons] at hrevch
      simp [lastDelta, hrev, hrevch.1]
    rw [hstep, if_neg (by simp [hzero])]

/-- Witness for C3 at concrete histories: a converging pair of histories and
an all-equal-energy history. -/
theorem check_progress_converged_iff_witness :
    check_progress (1/500) "Cutoff"
      ⟨[], [], [("Cutoff", [1, 2])], [("Cutoff", [9, 9001/1000])]⟩ = .ok 0 ∧
    check_progress (1/500) "Cutoff"
      ⟨[], [], [("Cutoff", [3, 3])], [("Cutoff", [9, 0])]⟩ = .ok 1 := by
  constructor
  · exact (check_progress_converged_iff (1/500) "Cutoff" [] [] [1, 2]
      [9, 9001/1000] (by norm_num) (by norm_num)).1.mpr
      (by norm_num [lastDelta])
  · exact (check_progress_converged_iff (1/500) "Cutoff" [] [] [3, 3]
      [9, 0] (by norm_num) (by norm_num)).2
      (by simp [List.chain'_cons])

/-- C4.  After `__init__` (which creates `energy_array` and `force_array` as
empty dicts and never adds per-parameter keys), no empty history exists for
the `'Cutoff'` stage, and the first attempt to append a sample raises
`KeyError` instead of appending. -/
theorem no_history_at_stage_start :
    dictGet initState.energy_array "Cutoff" = none ∧
    dictGet initState.force_array "Cutoff" = none ∧
    update_property_arrays "Cutoff" (1, 2) initState =
      .error (.keyError "Cutoff") :=
  ⟨rfl, rfl, rfl⟩

/-- C5.  A stage started with the empty history the spec prescribes can never
exhaust its candidate list: on every non-empty candidate list, for every
engine, the loop stops during the first candidate with an `IndexError`
(`_check_progress` returns `0` on the one-sample history and the break
branch indexes `[-2]`), so the exhaustion outcome (`converged = false`,
accepted value = last candidate) is unreachable. -/
theorem exhaustion_unreachable
    (engine : PyDict ℚ → ℚ × ℚ) (tol : ℚ) (p : String) (c : ℚ) (cs : List ℚ)
    (mg : PyDict ℚ) (lr : PyDict (List ℚ)) :
    run_param_loop engine tol p p (c :: cs) ⟨mg, lr, [(p, [])], [(p, [])]⟩ =
      .error .indexError :=
  run_param_loop_first_candidate_stops engine tol p c cs mg lr

/-- Cast from the integer dtype back to a Python float value. -/
def intCastQ (z : ℤ) : ℚ := z

/-- Model of `np.linspace(a, b, n)` over exact rationals: `n` evenly spaced points
from `a` to `b` inclusive. -/
def linspace (a b : ℚ) (n : Nat) : List ℚ :=
  (List.range n).map fun (i : ℕ) => a + (b - a) * (i : ℚ) / ((n : ℚ) - 1)

/-- Truncation toward zero: numpy's cast of a float array to `dtype=int`. -/
def truncQ (q : ℚ) : ℤ := if 0 ≤ q then ⌊q⌋ else ⌈q⌉

/-- Model of `np.linspace(a, b, n, dtype=int)`. -/
def linspaceInt (a b : ℚ) (n : Nat) : List ℤ := (linspace a b n).map truncQ

/-- The per-parameter bounds dictionaries `start` / `stop` of
`IntegrationGridOptimizer` (defaults `{'Cutoff': 100, 'Ngrids': 5,
'Rel_cutoff': 60}` and `{'Cutoff': 1500, 'Ngrids': 8, 'Rel_cutoff': 120}`),
as a record with the three keys the code reads. -/
structure GridBounds where
  Cutoff : ℚ
  Ngrids : ℚ
  Rel_cutoff : ℚ

/-- Embedding of `_get_static_range` of `IntegrationGridOptimizer`: fill `loop_range`
with `np.linspace(start[k], stop[k], n, dtype=int)` for `Cutoff` (n = 10),
`Rel_cutoff` (n = 10) and `Ngrids` (n = 4). -/
def get_static_range (start stop : GridBounds) (st : OptState) : OptState :=
  let lc := (linspaceInt start.Cutoff stop.Cutoff 10).map intCastQ
  let lrc := (linspaceInt start.Rel_cutoff stop.Rel_cutoff 10).map intCastQ
  let ln := (linspaceInt start.Ngrids stop.Ngrids 4).map intCastQ
  let d3 := dictSet (dictSet (dictSet st.loop_range "Cutoff" lc) "Rel_cutoff" lrc) "Ngrids" ln
  { st with loop_range := d3 }

/-- Embedding of `CutoffOptimizer._get_static_range` of `optimize_interaction_cutoff.py`:
`np.linspace(self.start, self.stop, 10, dtype=int)`. -/
def CutoffOptimizer_get_static_range (start stop : ℚ) : List ℤ :=
  linspaceInt start stop 10

/-- The candidate-sequence property claimed by the spec, for an integer-dtype
candidate list: `n` elements, non-decreasing, endpoints equal to `start` /
`stop` up to the integer-dtype rounding (truncation). -/
def goodRangeZ (a b : ℚ) (n : Nat) (l : List ℤ) : Prop :=
  l.length = n ∧ List.Chain' (· ≤ ·) l ∧
    l.head? = some (truncQ a) ∧ l.getLast? = some (truncQ b)

/-- The same property for the candidate list stored (as Python floats) in
`loop_range`. -/
def goodRangeQ (a b : ℚ) (n : Nat) (l : List ℚ) : Prop :=
  l.length = n ∧ List.Chain' (· ≤ ·) l ∧
    l.head? = some (intCastQ (truncQ a)) ∧ l.getLast? = some (intCastQ (truncQ b))

theorem truncQ_mono {p q : ℚ} (h : p ≤ q) : truncQ p ≤ truncQ q := by
  unfold truncQ
  by_cases hp : 0 ≤ p
  · rw [if_pos hp, if_pos (le_trans hp h)]
    exact Int.floor_mono h
  · by_cases hq : 0 ≤ q
    · rw [if_neg hp, if_pos hq]
      have hc : ⌈p⌉ ≤ 0 := Int.ceil_le.2 (by push_cast; linarith)
      have hf : 0 ≤ ⌊q⌋ := Int.floor_nonneg.2 hq
      omega
    · rw [if_neg hp, if_neg hq]
      exact Int.ceil_mono h

theorem linspace_length (a b : ℚ) (n : Nat) : (linspace a b n).length = n := by
  simp only [linspace, List.length_map, List.length_range]

theorem linspace_chain (a b : ℚ) (n : Nat) (hab : a ≤ b) :
    List.Chain' (· ≤ ·) (linspace a b n) := by
  unfold linspace
  cases n with
  | zero => simp
  | succ m =>
    rw [List.chain'_map, List.chain'_range_succ]
    intro k hk
    have hm : (1 : ℚ) ≤ (m : ℚ) := by exact_mod_cast Nat.one_le_iff_ne_zero.2 (by omega)
    have hd : ((m + 1 : ℕ) : ℚ) - 1 = (m : ℚ) := by push_cast; ring
    rw [hd]
    have hc : (k : ℚ) ≤ ((k.succ : ℕ) : ℚ) := by push_cast; linarith
    have hd0 : (0 : ℚ) < (m : ℚ) := by linarith
    gcongr
    linarith

theorem range_head (n : Nat) (h : n ≠ 0) : (List.range n).head? = some 0 := by
  cases n with
  | zero => exact absurd rfl h
  | succ m =>
    rw [List.range_succ_eq_map]
    rfl

theorem range_getLast (n : Nat) (h : n ≠ 0) :
    (List.range n).getLast? = some (n - 1) := by
  cases n with
  | zero => exact absurd rfl h
  | succ m =>
    rw [List.range_succ, List.getLast?_concat]
    simp

theorem linspace_head (a b : ℚ) (n : Nat) (h : n ≠ 0) :
    (linspace a b n).head? = some a := by
  unfold linspace
  rw [List.head?_map, range_head n h]
  simp

theorem linspace_getLast (a b : ℚ) (n : Nat) (h : 2 ≤ n) :
    (linspace a b n).getLast? = some b := by
  unfold linspace
  rw [List.getLast?_map, range_getLast n (by omega)]
  simp only [Option.map_some']
  rw [Option.some_inj]
  have hc : ((n - 1 : ℕ) : ℚ) = (n : ℚ) - 1 := by
    push_cast [Nat.cast_sub (by omega : 1 ≤ n)]
    ring
  rw [hc]
  have hn2 : (2 : ℚ) ≤ (n : ℚ) := by exact_mod_cast h
  have hne : (n : ℚ) - 1 ≠ 0 := by
    intro hz
    rw [sub_eq_zero] at hz
    linarith
  field_simp

/-- The `dtype=int` linspace with at least two sample points satisfies the
spec\'s candidate-sequence property. -/
theorem linspaceInt_spec (a b : ℚ) (n : Nat) (h2 : 2 ≤ n) (hab : a ≤ b) :
    goodRangeZ a b n (linspaceInt a b n) := by
  refine ⟨by simp [linspaceInt, List.length_map, linspace_length], ?_, ?_, ?_⟩
  · rw [linspaceInt]
    exact List.chain'_map_of_chain' truncQ (fun x y h => truncQ_mono h)
      (linspace_chain a b n hab)
  · rw [linspaceInt, List.head?_map, linspace_head a b n (by omega)]
    rfl
  · rw [linspaceInt, List.getLast?_map, linspace_getLast a b n h2]
    rfl

theorem goodRangeQ_of_goodRangeZ (a b : ℚ) (n : Nat) (l : List ℤ)
    (h : goodRangeZ a b n l) : goodRangeQ a b n (l.map intCastQ) := by
  obtain ⟨h1, h2, h3, h4⟩ := h
  refine ⟨by simp [h1], ?_, ?_, ?_⟩
  · exact List.chain'_map_of_chain' intCastQ
      (fun x y hxy => by simp only [intCastQ]; exact_mod_cast hxy) h2
  · rw [List.head?_map, h3]
    rfl
  · rw [List.getLast?_map, h4]
    rfl

theorem dictGet_dictSet_self {α : Type} (d : PyDict α) (k : String) (v : α) :
    dictGet (dictSet d k v) k = some v := by
  induction d with
  | nil => simp [dictGet, dictSet, List.find?]
  | cons kv rest ih =>
    obtain ⟨k2, v2⟩ := kv
    by_cases h : k2 == k
    · simp [dictSet, h, dictGet, List.find?]
    · simp only [dictSet, h, Bool.false_eq_true, if_false]
      simpa [dictGet, List.find?, h] using ih

theorem dictGet_dictSet_ne {α : Type} (d : PyDict α) (k k2 : String) (v : α)
    (h : (k2 == k) = false) : dictGet (dictSet d k2 v) k = dictGet d k := by
  induction d with
  | nil => simp [dictGet, dictSet, List.find?, h]
  | cons kv rest ih =>
    obtain ⟨k3, v3⟩ := kv
    by_cases h2 : k3 == k2
    · have h3 : (k3 == k) = false := by
        have hk := eq_of_beq h2
        subst hk
        exact h
      simp [dictSet, h2, dictGet, List.find?, h, h3]
    · by_cases h4 : k3 == k
      · simp [dictSet, h2, dictGet, List.find?, h4]
      · simp only [dictSet, h2, Bool.false_eq_true, if_false]
        simpa [dictGet, List.find?, h4] using ih

theorem get_static_range_loop_range (start stop : GridBounds) (st : OptState) :
    (get_static_range start stop st).loop_range =
      dictSet (dictSet (dictSet st.loop_range
          "Cutoff" ((linspaceInt start.Cutoff stop.Cutoff 10).map intCastQ))
          "Rel_cutoff" ((linspaceInt start.Rel_cutoff stop.Rel_cutoff 10).map intCastQ))
        "Ngrids" ((linspaceInt start.Ngrids stop.Ngrids 4).map intCastQ) := rfl

/-- C9.  The candidate ranges generated by `_get_static_range` (in both
modules): for each configured parameter with `start ≤ stop`, the stored
candidate list is the `dtype=int` linspace with the hard-coded sample count
(10 for `Cutoff` and `Rel_cutoff`, 4 for `Ngrids`, 10 in
`CutoffOptimizer`), and that list has exactly `n` elements, is
non-decreasing, and starts/ends at the truncated `start`/`stop`. -/
theorem static_range_spec (start stop : GridBounds) (st : OptState)
    (h1 : start.Cutoff ≤ stop.Cutoff) (h2 : start.Rel_cutoff ≤ stop.Rel_cutoff)
    (h3 : start.Ngrids ≤ stop.Ngrids) (a b : ℚ) (hab : a ≤ b) :
    (dictGet (get_static_range start stop st).loop_range "Cutoff" =
        some ((linspaceInt start.Cutoff stop.Cutoff 10).map intCastQ) ∧
      goodRangeQ start.Cutoff stop.Cutoff 10
        ((linspaceInt start.Cutoff stop.Cutoff 10).map intCastQ)) ∧
    (dictGet (get_static_range start stop st).loop_range "Rel_cutoff" =
        some ((linspaceInt start.Rel_cutoff stop.Rel_cutoff 10).map intCastQ) ∧
      goodRangeQ start.Rel_cutoff stop.Rel_cutoff 10
        ((linspaceInt start.Rel_cutoff stop.Rel_cutoff 10).map intCastQ)) ∧
    (dictGet (get_static_range start stop st).loop_range "Ngrids" =
        some ((linspaceInt start.Ngrids stop.Ngrids 4).map intCastQ) ∧
      goodRangeQ start.Ngrids stop.Ngrids 4
        ((linspaceInt start.Ngrids stop.Ngrids 4).map intCastQ)) ∧
    goodRangeZ a b 10 (CutoffOptimizer_get_static_range a b) := by
  refine ⟨⟨?_, goodRangeQ_of_goodRangeZ _ _ _ _ (linspaceInt_spec _ _ 10 (by norm_num) h1)⟩,
    ⟨?_, goodRangeQ_of_goodRangeZ _ _ _ _ (linspaceInt_spec _ _ 10 (by norm_num) h2)⟩,
    ⟨?_, goodRangeQ_of_goodRangeZ _ _ _ _ (linspaceInt_spec _ _ 4 (by norm_num) h3)⟩,
    linspaceInt_spec a b 10 (by norm_num) hab⟩
  · rw [get_static_range_loop_range,
      dictGet_dictSet_ne _ _ _ _ (by decide),
      dictGet_dictSet_ne _ _ _ _ (by decide),
      dictGet_dictSet_self]
  · rw [get_static_range_loop_range,
      dictGet_dictSet_ne _ _ _ _ (by decide),
      dictGet_dictSet_self]
  · rw [get_static_range_loop_range, dictGet_dictSet_self]

/-- Witness for C9 at the constructor defaults of both optimizer classes. -/
theorem static_range_spec_witness :
    (dictGet (get_static_range ⟨100, 5, 60⟩ ⟨1500, 8, 120⟩ initState).loop_range
        "Cutoff" = some ((linspaceInt 100 1500 10).map intCastQ) ∧
      goodRangeQ 100 1500 10 ((linspaceInt 100 1500 10).map intCastQ)) ∧
    (dictGet (get_static_range ⟨100, 5, 60⟩ ⟨1500, 8, 120⟩ initState).loop_range
        "Rel_cutoff" = some ((linspaceInt 60 120 10).map intCastQ) ∧
      goodRangeQ 60 120 10 ((linspaceInt 60 120 10).map intCastQ)) ∧
    (dictGet (get_static_range ⟨100, 5, 60⟩ ⟨1500, 8, 120⟩ initState).loop_range
        "Ngrids" = some ((linspaceInt 5 8 4).map intCastQ) ∧
      goodRangeQ 5 8 4 ((linspaceInt 5 8 4).map intCastQ)) ∧
    goodRangeZ 100 1600 10 (CutoffOptimizer_get_static_range 100 1600) :=
  static_range_spec ⟨100, 5, 60⟩ ⟨1500, 8, 120⟩ initState (by norm_num)
    (by norm_num) (by norm_num) 100 1600 (by norm_num)

/-- Embedding of `_set_defaults_parameters`: write `loop_range['Rel_cutoff'][0]` and
`loop_range['Ngrids'][0]` into the `MGRID` section before the sweeps. -/
def set_defaults_parameters (st : OptState) : Except PyErr OptState :=
  match dictGetE st.loop_range "Rel_cutoff" with
  | .error e => .error e
  | .ok lrel =>
    match pyIdx0 lrel with
    | .error e => .error e
    | .ok r0 =>
      match dictGetE st.loop_range "Ngrids" with
      | .error e => .error e
      | .ok lng =>
        match pyIdx0 lng with
        | .error e => .error e
        | .ok n0 => .ok (update_property st [("Rel_cutoff", r0), ("Ngrids", n0)])

/-- Embedding of `run_optimizer`: build the static ranges, set the default parameters,
build the cell (external, no modeled state), then run the three sweep stages
in the fixed order cutoff → rel cutoff → ngrids. -/
def run_optimizer (engine : PyDict ℚ → ℚ × ℚ) (tol : ℚ)
    (start stop : GridBounds) : Except PyErr OptState :=
  let st1 := get_static_range start stop initState
  match set_defaults_parameters st1 with
  | .error e => .error e
  | .ok st2 =>
    match run_cutoff_optimization engine tol st2 with
    | .error e => .error e
    | .ok st3 =>
      match run_rel_cutoff_optimization engine tol st3 with
      | .error e => .error e
      | .ok st4 => run_n_grids_optimization engine tol st4

/-- C8.  For every engine, tolerance and bounds, `run_optimizer` aborts
inside stage 1 at its first candidate with `KeyError('Cutoff')`
(`energy_array` was created empty and never given per-parameter keys), so
no stage ever completes and stage 3 never runs with accumulated accepted
values. -/
theorem run_optimizer_crashes_in_stage_one (engine : PyDict ℚ → ℚ × ℚ)
    (tol : ℚ) (start stop : GridBounds) :
    run_optimizer engine tol start stop = .error (.keyError "Cutoff") := rfl

/-- Numeric value of a digit string (helper for the modeled `float(...)`). -/
def digitsToNat (ds : List Char) : Nat :=
  ds.foldl (fun a c => a * 10 + (c.toNat - 48)) 0

/-- Strip an optional leading sign, returning the sign factor and the rest. -/
def pyStripSign (cs : List Char) : ℚ × List Char :=
  if cs.head? = some '-' then (-1, cs.tail)
  else if cs.head? = some '+' then (1, cs.tail)
  else (1, cs)

/-- Exponent part of the modeled `float(...)`: `[+-]digits`. -/
def pyFloatExp (sgn mant : ℚ) (r : List Char) : Option ℚ :=
  let eneg : Bool := r.head? = some '-'
  let r2 := if r.head? = some '-' ∨ r.head? = some '+' then r.tail else r
  let ed := r2.takeWhile Char.isDigit
  let rest := r2.dropWhile Char.isDigit
  if ed.isEmpty ∨ ¬ rest.isEmpty then none
  else if eneg then some (sgn * mant / ((10 : ℚ) ^ digitsToNat ed))
  else some (sgn * mant * ((10 : ℚ) ^ digitsToNat ed))

/-- The modeled Python `float(token)` on the decimal/scientific forms that
CP2K output tokens take (`[+-]digits[.digits][eE[+-]digits]`), as an exact
rational; `none` models the `ValueError` on a non-numeric token. -/
def pyFloatAux (cs : List Char) : Option ℚ :=
  let sg := pyStripSign cs
  let ip := sg.2.takeWhile Char.isDigit
  let cs2 := sg.2.dropWhile Char.isDigit
  let hasDot : Bool := cs2.head? = some '.'
  let frac := if hasDot then cs2.tail.takeWhile Char.isDigit else []
  let cs3 := if hasDot then cs2.tail.dropWhile Char.isDigit else cs2
  if ip.isEmpty ∧ frac.isEmpty then none
  else
    let mant : ℚ := (digitsToNat ip : ℚ) +
      (digitsToNat frac : ℚ) / ((10 : ℚ) ^ frac.length)
    if cs3.isEmpty then some (sg.1 * mant)
    else if cs3.head? = some 'e' ∨ cs3.head? = some 'E' then
      pyFloatExp sg.1 mant cs3.tail
    else none

def pyFloat (s : String) : Option ℚ := pyFloatAux s.data

/-- Accumulating worker for the modeled `str.split()` (split on whitespace
runs, dropping empty fields). -/
def splitWsAux : List Char → List Char → List String
  | [], acc => if acc.isEmpty then [] else [String.mk acc.reverse]
  | c :: rest, acc =>
    if c.isWhitespace then
      if acc.isEmpty then splitWsAux rest []
      else String.mk acc.reverse :: splitWsAux rest []
    else splitWsAux rest (c :: acc)

/-- Python `line.split()` with no argument. -/
def pySplit (s : String) : List String := splitWsAux s.data []

/-- Whether `pat` occurs as a contiguous substring. -/
def charsInfix (pat : List Char) : List Char → Bool
  | [] => pat.isEmpty
  | c :: rest => pat.isPrefixOf (c :: rest) || charsInfix pat rest

/-- Model of `re.search(pattern, line)` for the literal (metacharacter-free) patterns
the source uses: substring occurrence. -/
def reSearch (pat line : String) : Bool := charsInfix pat.data line.data

/-- The energy marker of `_read_energy`. -/
def energy_pattern : String := "Total FORCE_EVAL"

/-- The lines of an artifact matching the energy marker. -/
def energyMarkerLines (lines : List String) : List String :=
  lines.filter fun l => reSearch energy_pattern l

/-- The scanning loop of `_read_energy`: for every line matching the marker,
`energy = float(line.split()[-1])`; carries the latest value. -/
def read_energy_loop (energy : Option ℚ) : List String → Except PyErr (Option ℚ)
  | [] => .ok energy
  | line :: rest =>
    if reSearch energy_pattern line then
      match (pySplit line).getLast? with
      | none => .error .indexError
      | some tok =>
        match pyFloat tok with
        | none => .error .valueError
        | some v => read_energy_loop (some v) rest
    else read_energy_loop energy rest

/-- Embedding of `_read_energy`: scan all lines; if no marker line was seen, print an
error and `sys.exit(1)`, else return the energy parsed from the last marker
line. -/
def read_energy (lines : List String) : Except PyErr ℚ :=
  match read_energy_loop none lines with
  | .error e => .error e
  | .ok none => .error (.sysExit 1)
  | .ok (some e) => .ok e

theorem read_energy_loop_no_match (lines : List String) (acc : Option ℚ)
    (h : ∀ l ∈ lines, reSearch energy_pattern l = false) :
    read_energy_loop acc lines = .ok acc := by
  induction lines generalizing acc with
  | nil => rfl
  | cons l rest ih =>
    have hl : reSearch energy_pattern l = false := h l (List.mem_cons_self l rest)
    rw [read_energy_loop, hl]
    exact ih acc fun x hx => h x (List.mem_cons_of_mem l hx)

theorem read_energy_loop_last (lines : List String) :
    ∀ (acc : Option ℚ) (lm tok : String) (v : ℚ),
      (energyMarkerLines lines).getLast? = some lm →
      (∀ l ∈ energyMarkerLines lines,
        ∃ t w, (pySplit l).getLast? = some t ∧ pyFloat t = some w) →
      (pySplit lm).getLast? = some tok → pyFloat tok = some v →
      read_energy_loop acc lines = .ok (some v) := by
  induction lines with
  | nil =>
    intro acc lm tok v hlast
    simp [energyMarkerLines] at hlast
  | cons l rest ih =>
    intro acc lm tok v hlast hall htok hv
    by_cases hm : reSearch energy_pattern l
    · have hfil : energyMarkerLines (l :: rest) = l :: energyMarkerLines rest := by
        simp [energyMarkerLines, List.filter_cons, hm]
      obtain ⟨t, w, ht, hw⟩ := hall l (by rw [hfil]; exact List.mem_cons_self _ _)
      have hstep : read_energy_loop acc (l :: rest) = read_energy_loop (some w) rest := by
        rw [read_energy_loop]
        simp [hm, ht, hw]
      rw [hfil] at hlast
      by_cases hrest : energyMarkerLines rest = []
      · rw [hrest] at hlast
        simp only [List.getLast?_singleton, Option.some_inj] at hlast
        subst hlast
        rw [ht, Option.some_inj] at htok
        subst htok
        rw [hw, Option.some_inj] at hv
        subst hv
        rw [hstep]
        exact read_energy_loop_no_match rest (some w) fun x hx => by
          by_contra hcon
          have hx2 : x ∈ energyMarkerLines rest := by
            rw [energyMarkerLines, List.mem_filter]
            exact ⟨hx, by simpa using hcon⟩
          rw [hrest] at hx2
          exact absurd hx2 (List.not_mem_nil x)
      · obtain ⟨m, ms, hms⟩ := List.exists_cons_of_ne_nil hrest
        rw [hms, List.getLast?_cons_cons] at hlast
        rw [hstep]
        exact ih (some w) lm tok v (by rw [hms]; exact hlast)
          (fun x hx => hall x (by rw [hfil]; exact List.mem_cons_of_mem _ hx))
          htok hv
    · have hfil : energyMarkerLines (l :: rest) = energyMarkerLines rest := by
        simp [energyMarkerLines, List.filter_cons, hm]
      have hstep : read_energy_loop acc (l :: rest) = read_energy_loop acc rest := by
        rw [read_energy_loop]
        simp [hm]
      rw [hstep]
      rw [hfil] at hlast
      exact ih acc lm tok v hlast
        (fun x hx => hall x (by rw [hfil]; exact hx)) htok hv

/-- C6.  `_read_energy` returns the parsed trailing token of the *last* line
matching the energy marker, and on an artifact with no marker line it fails
hard (`sys.exit(1)`), never returning a default value. -/
theorem read_energy_spec (lines : List String) :
    (energyMarkerLines lines = [] → read_energy lines = .error (.sysExit 1)) ∧
    (∀ lm tok v, (energyMarkerLines lines).getLast? = some lm →
      (pySplit lm).getLast? = some tok → pyFloat tok = some v →
      (∀ l ∈ energyMarkerLines lines,
        ∃ t w, (pySplit l).getLast? = some t ∧ pyFloat t = some w) →
      read_energy lines = .ok v) := by
  constructor
  · intro h
    have hloop : read_energy_loop none lines = .ok none :=
      read_energy_loop_no_match lines none fun x hx => by
        by_contra hcon
        have hx2 : x ∈ energyMarkerLines lines := by
          rw [energyMarkerLines, List.mem_filter]
          exact ⟨hx, by simpa using hcon⟩
        rw [h] at hx2
        exact absurd hx2 (List.not_mem_nil x)
    rw [read_energy, hloop]
  · intro lm tok v hlast htok hv hall
    have hloop := read_energy_loop_last lines none lm tok v hlast hall htok hv
    rw [read_energy, hloop]

theorem pyFloat_sample : pyFloat "-3.25" = some (-13/4) := by
  have hd : "-3.25".data = ['-', '3', '.', '2', '5'] := by decide
  rw [pyFloat, hd]
  simp +decide [pyFloatAux, pyStripSign, digitsToNat]
  norm_num

/-- Witness for C6: a marker-free artifact exits, a marker artifact returns
the trailing token of the marker line. -/
theorem read_energy_spec_witness :
    read_energy ["no energy marker here"] = .error (.sysExit 1) ∧
    read_energy ["banner line",
      "ENERGY| Total FORCE_EVAL ( QS ) energy:  -3.25"] = .ok (-13/4) := by
  constructor
  · exact (read_energy_spec _).1 (by decide)
  · refine (read_energy_spec _).2 "ENERGY| Total FORCE_EVAL ( QS ) energy:  -3.25"
      "-3.25" (-13/4) (by decide) (by decide) pyFloat_sample ?_
    intro l hl
    have hml : energyMarkerLines ["banner line",
        "ENERGY| Total FORCE_EVAL ( QS ) energy:  -3.25"] =
        ["ENERGY| Total FORCE_EVAL ( QS ) energy:  -3.25"] := by decide
    rw [hml] at hl
    simp at hl
    subst hl
    exact ⟨"-3.25", -13/4, by decide, pyFloat_sample⟩

/-- Whether `nm` ends with `suffix` (the decisive part of matching the glob pattern
`*.xyz`). -/
def strEndsWith (s suffix : String) : Bool := decide (suffix.data <:+ s.data)

/-- Model of `glob.glob(f"{cwd}/*.xyz")` over a directory listing `names`: the names
ending in `.xyz`, each returned with the directory prefix `cwd + "/"`. -/
def glob_xyz (cwd : String) (names : List String) : List String :=
  (names.filter fun nm => strEndsWith nm ".xyz").map fun nm => cwd ++ "/" ++ nm

/-- Embedding of `_get_force_file`: build the name `project_name + ".out"`, glob for
`{cwd}/*.xyz`, and `sys.exit(1)` unless the bare `.out` name is a member of
the glob results. -/
def get_force_file (cwd project_name : String) (dir_names : List String) :
    Except PyErr String :=
  let force_file := project_name ++ ".out"
  if force_file ∈ glob_xyz cwd dir_names then .ok force_file
  else .error (.sysExit 1)

/-- C10.  For every working directory, project name and directory listing,
`_get_force_file` exits: every glob result ends in `.xyz` (and carries the
directory prefix) while the searched-for name ends in `.out`, so the
membership test can never succeed and the success branch is unreachable. -/
theorem get_force_file_always_exits (cwd project_name : String)
    (dir_names : List String) :
    get_force_file cwd project_name dir_names = .error (.sysExit 1) := by
  have hmem : (project_name ++ ".out") ∉ glob_xyz cwd dir_names := by
    intro hmem
    rw [glob_xyz, List.mem_map] at hmem
    obtain ⟨nm, hnm, heq⟩ := hmem
    rw [List.mem_filter] at hnm
    have hsuf : (".xyz").data <:+ nm.data := of_decide_eq_true hnm.2
    obtain ⟨t, ht⟩ := hsuf
    have hdata : cwd.data ++ ("/".data ++ nm.data) =
        project_name.data ++ (".out").data := by
      have hd := congrArg String.data heq
      rw [String.data_append, String.data_append] at hd
      simpa [List.append_assoc] using hd
    have hxyz : (".xyz").data = ['.', 'x', 'y', 'z'] := by decide
    have h1 : (cwd.data ++ ("/".data ++ nm.data)).getLast? = some 'z' := by
      rw [← ht, hxyz]
      rw [show cwd.data ++ ("/".data ++ (t ++ ['.', 'x', 'y', 'z'])) =
        (cwd.data ++ ("/".data ++ t)) ++ ['.', 'x', 'y', 'z'] from by
          simp [List.append_assoc]]
      rw [List.getLast?_append,
        show (['.', 'x', 'y', 'z'] : List Char).getLast? = some 'z' from by decide]
      rfl
    have hout : (".out").data = ['.', 'o', 'u', 't'] := by decide
    have h2 : (project_name.data ++ (".out").data).getLast? = some 't' := by
      rw [hout, List.getLast?_append,
        show (['.', 'o', 'u', 't'] : List Char).getLast? = some 't' from by decide]
      rfl
    rw [hdata, h2] at h1
    exact absurd (Option.some_inj.mp h1) (by decide)
  rw [get_force_file, if_neg hmem]

/-- The force-table start marker of `_read_forces` (exact source text). -/
def pattern_1 : String :=
  "# Atom   Kind   Element          X              Y              Z"

/-- The force-table end marker of `_read_forces`. -/
def pattern_2 : String := "SUM OF ATOMIC FORCES"

/-- The first loop of `_read_forces`: for each line, `if` the start marker
matches set `start = i + 1`, `elif` the end marker matches set
`stop = i - 1`; a variable never assigned stays `none` (unbound). -/
def scan_markers : List String → Nat → Option Nat → Option Int →
    Option Nat × Option Int
  | [], _, s, t => (s, t)
  | l :: rest, i, s, t =>
    if reSearch pattern_1 l then scan_markers rest (i + 1) (some (i + 1)) t
    else if reSearch pattern_2 l then
      scan_markers rest (i + 1) s (some ((i : Int) - 1))
    else scan_markers rest (i + 1) s t

/-- Model of `np.array(line.split())[3:].astype(float)`: the tokens after the third,
parsed as floats (`none` models the `ValueError`). -/
def rowQ (line : String) : Option (List ℚ) :=
  ((pySplit line).drop 3).mapM pyFloat

/-- The same row parse as an `Except`. -/
def parseRow (line : String) : Except PyErr (List ℚ) :=
  match rowQ line with
  | some qs => .ok qs
  | none => .error .valueError

/-- The second loop of `_read_forces`: skip lines with `i < start`,
accumulate `np.linalg.norm(...)` of each row with `start <= i <= stop`,
`break` past `stop`.  Reading `start`/`stop` while unbound raises
`UnboundLocalError`.  `norm` abstracts `np.linalg.norm` on the parsed row
(a square root, evaluated in floating point by numpy; the claims proved
here hold for every `norm`). -/
def force_sum_loop (norm : List ℚ → ℚ) (start? : Option Nat)
    (stop? : Option Int) : ℚ → Nat → List String → Except PyErr ℚ
  | acc, _, [] => .ok acc
  | acc, i, line :: rest =>
    match start? with
    | none => .error .unboundLocal
    | some s =>
      if i < s then force_sum_loop norm start? stop? acc (i + 1) rest
      else
        match stop? with
        | none => .error .unboundLocal
        | some e =>
          if (i : Int) ≤ e then
            match parseRow line with
            | .error err => .error err
            | .ok qs => force_sum_loop norm start? stop? (acc + norm qs) (i + 1) rest
          else .ok acc

/-- Embedding of `_read_forces`: locate the last marker occurrences, then sum the row
norms between them and divide by the atom count. -/
def read_forces (norm : List ℚ → ℚ) (lines : List String) (n_atoms : ℚ) :
    Except PyErr ℚ :=
  let mk := scan_markers lines 0 none none
  match force_sum_loop norm mk.1 mk.2 0 0 lines with
  | .error e => .error e
  | .ok force => .ok (force / n_atoms)

/-- A concrete stand-in for `np.linalg.norm` used in closed instances: the
sum of squares of the row entries (the true norm is its square root, an
irrational float; the theorems hold for every `norm`). -/
def sampleNorm (v : List ℚ) : ℚ := (v.map fun x => x * x).sum

theorem scan_markers_append (xs ys : List String) :
    ∀ i s t, scan_markers (xs ++ ys) i s t =
      scan_markers ys (i + xs.length) (scan_markers xs i s t).1
        (scan_markers xs i s t).2 := by
  induction xs with
  | nil =>
    intro i s t
    simp [scan_markers]
  | cons x xs ih =>
    intro i s t
    have hlen : i + (x :: xs).length = (i + 1) + xs.length := by
      simp [List.length_cons]
      omega
    rw [List.cons_append, hlen]
    by_cases h1 : reSearch pattern_1 x
    · simp only [scan_markers, h1, if_true]
      exact ih (i + 1) (some (i + 1)) t
    · by_cases h2 : reSearch pattern_2 x
      · simp only [scan_markers, h1, h2, Bool.false_eq_true, if_false, if_true]
        exact ih (i + 1) s (some ((i : Int) - 1))
      · simp only [scan_markers, h1, h2, Bool.false_eq_true, if_false]
        exact ih (i + 1) s t

theorem scan_markers_skip (xs : List String)
    (h1 : ∀ l ∈ xs, reSearch pattern_1 l = false)
    (h2 : ∀ l ∈ xs, reSearch pattern_2 l = false) :
    ∀ i s t, scan_markers xs i s t = (s, t) := by
  induction xs with
  | nil =>
    intro i s t
    rfl
  | cons x xs ih =>
    intro i s t
    have hx1 := h1 x (List.mem_cons_self x xs)
    have hx2 := h2 x (List.mem_cons_self x xs)
    simp only [scan_markers, hx1, hx2, Bool.false_eq_true, if_false]
    exact ih (fun l hl => h1 l (List.mem_cons_of_mem x hl))
      (fun l hl => h2 l (List.mem_cons_of_mem x hl)) (i + 1) s t

theorem scan_markers_no_p2 (xs : List String)
    (h2 : ∀ l ∈ xs, reSearch pattern_2 l = false) :
    ∀ i s t, (scan_markers xs i s t).2 = t := by
  induction xs with
  | nil =>
    intro i s t
    rfl
  | cons x xs ih =>
    intro i s t
    have hx2 := h2 x (List.mem_cons_self x xs)
    by_cases hx1 : reSearch pattern_1 x
    · simp only [scan_markers, hx1, if_true]
      exact ih (fun l hl => h2 l (List.mem_cons_of_mem x hl)) (i + 1) (some (i + 1)) t
    · simp only [scan_markers, hx1, hx2, Bool.false_eq_true, if_false]
      exact ih (fun l hl => h2 l (List.mem_cons_of_mem x hl)) (i + 1) s t

theorem force_sum_loop_skip (norm : List ℚ → ℚ) (s : Nat) (stop? : Option Int)
    (xs ys : List String) :
    ∀ (i : Nat) (acc : ℚ), i + xs.length ≤ s →
      force_sum_loop norm (some s) stop? acc i (xs ++ ys) =
        force_sum_loop norm (some s) stop? acc (i + xs.length) ys := by
  induction xs with
  | nil =>
    intro i acc h
    simp
  | cons x xs ih =>
    intro i acc h
    have hlen : i + (x :: xs).length = (i + 1) + xs.length := by
      simp [List.length_cons]
      omega
    rw [List.cons_append, hlen]
    simp only [force_sum_loop]
    rw [if_pos (by simp [List.length_cons] at h; omega : i < s)]
    exact ih (i + 1) acc (by simp [List.length_cons] at h; omega)

theorem force_sum_loop_rows (norm : List ℚ → ℚ) (s : Nat) (e : Int)
    (stopLine : String) (post : List String) (rows : List String) :
    ∀ (i : Nat) (acc : ℚ),
      s ≤ i → ((i : Int) + (rows.length : Int) = e + 1) →
      (∀ l ∈ rows, (rowQ l).isSome) →
      force_sum_loop norm (some s) (some e) acc i (rows ++ stopLine :: post) =
        .ok (acc + (rows.map fun l => norm ((rowQ l).getD [])).sum) := by
  induction rows with
  | nil =>
    intro i acc hsi hie _
    rw [List.nil_append]
    simp only [force_sum_loop]
    rw [if_neg (by omega : ¬ i < s)]
    rw [if_neg (by simp at hie; omega : ¬ ((i : Int) ≤ e))]
    simp
  | cons r rows ih =>
    intro i acc hsi hie hall
    rw [List.cons_append]
    simp only [force_sum_loop]
    rw [if_neg (by omega : ¬ i < s)]
    rw [if_pos (by simp at hie ⊢; omega : ((i : Int) ≤ e))]
    have hr := hall r (List.mem_cons_self r rows)
    have hpr : parseRow r = .ok ((rowQ r).getD []) := by
      rw [parseRow]
      match hq : rowQ r with
      | none =>
        rw [hq] at hr
        simp at hr
      | some qs => simp
    rw [hpr]
    show force_sum_loop norm (some s) (some e) (acc + norm ((rowQ r).getD []))
        (i + 1) (rows ++ stopLine :: post) =
      Except.ok (acc + (List.map (fun l => norm ((rowQ l).getD [])) (r :: rows)).sum)
    rw [ih (i + 1) (acc + norm ((rowQ r).getD []))
      (by omega)
      (by simp at hie ⊢; omega)
      (fun l hl => hall l (List.mem_cons_of_mem r hl))]
    rw [List.map_cons, List.sum_cons, add_assoc]

theorem read_forces_eq (norm : List ℚ → ℚ) (lines : List String) (n : ℚ) :
    read_forces norm lines n =
      match force_sum_loop norm (scan_markers lines 0 none none).1
          (scan_markers lines 0 none none).2 0 0 lines with
      | .error e => .error e
      | .ok force => .ok (force / n) := rfl

/-- Counterexample to C7 as stated: an artifact whose only line is the force
start marker (so the end marker is absent) makes `_read_forces` return the
silent default `0 / n_atoms = 0` — no `MalformedArtifact` (nor any) failure. -/
theorem read_forces_missing_end_marker_returns_zero :
    read_forces sampleNorm [pattern_1] 2 = .ok 0 := by
  have h1 : reSearch pattern_1 pattern_1 = true := by decide
  have hscan : scan_markers [pattern_1] 0 none none = (some 1, none) := by
    simp [scan_markers, h1]
  have hs1 : (scan_markers [pattern_1] 0 none none).1 = some 1 := by rw [hscan]
  have hs2 : (scan_markers [pattern_1] 0 none none).2 = none := by rw [hscan]
  rw [read_forces_eq, hs1, hs2]
  have hz : (0 : ℚ) / 2 = 0 := by norm_num
  simp only [force_sum_loop]
  norm_num

/-- C7 (amended).  What `_read_forces` actually does: (a) when the start
marker is present but no end marker occurs anywhere, the `stop` variable is
never assigned, so if any line lies at or beyond the computed row-start
index the function crashes with `UnboundLocalError` (not an explicit
`MalformedArtifact`), and if the start marker is the last line it silently
returns `0 / n_atoms`; (b) on a well-formed artifact (a start-marker line,
then force rows, then an end-marker line, with no stray markers after the
start), it returns the sum of the row norms strictly between the markers
divided by the atom count. -/
theorem read_forces_spec (norm : List ℚ → ℚ) (n : ℚ) :
    (∀ (pre post : List String) (startLine : String),
      reSearch pattern_1 startLine = true →
      (∀ l ∈ post, reSearch pattern_1 l = false) →
      (∀ l ∈ pre ++ startLine :: post, reSearch pattern_2 l = false) →
      (post = [] → read_forces norm (pre ++ startLine :: post) n = .ok (0 / n)) ∧
      (post ≠ [] → read_forces norm (pre ++ startLine :: post) n =
        .error .unboundLocal)) ∧
    (∀ (pre rows post : List String) (startLine stopLine : String),
      reSearch pattern_1 startLine = true →
      reSearch pattern_2 stopLine = true →
      reSearch pattern_1 stopLine = false →
      (∀ l ∈ rows ++ post, reSearch pattern_1 l = false) →
      (∀ l ∈ rows ++ post, reSearch pattern_2 l = false) →
      (∀ l ∈ rows, (rowQ l).isSome) →
      read_forces norm (pre ++ startLine :: (rows ++ stopLine :: post)) n =
        .ok ((rows.map fun l => norm ((rowQ l).getD [])).sum / n)) := by
  constructor
  · intro pre post startLine h1 hpost1 hall2
    have hpre2 : ∀ l ∈ pre, reSearch pattern_2 l = false :=
      fun l hl => hall2 l (List.mem_append_left _ hl)
    have hpost2 : ∀ l ∈ post, reSearch pattern_2 l = false :=
      fun l hl => hall2 l (List.mem_append_right _ (List.mem_cons_of_mem _ hl))
    have hscan : scan_markers (pre ++ startLine :: post) 0 none none =
        (some (pre.length + 1), none) := by
      rw [scan_markers_append]
      rw [scan_markers_no_p2 pre hpre2 0 none none]
      simp only [scan_markers, h1, if_true]
      rw [scan_markers_skip post hpost1 hpost2]
      simp
    have hs1 : (scan_markers (pre ++ startLine :: post) 0 none none).1 =
        some (pre.length + 1) := by rw [hscan]
    have hs2 : (scan_markers (pre ++ startLine :: post) 0 none none).2 =
        none := by rw [hscan]
    constructor
    · intro hnil
      subst hnil
      rw [read_forces_eq, hs1, hs2]
      have hsplit : pre ++ [startLine] = (pre ++ [startLine]) ++ ([] : List String) := by
        simp
      rw [hsplit, force_sum_loop_skip norm (pre.length + 1) none
        (pre ++ [startLine]) [] 0 0 (by simp)]
      simp [force_sum_loop]
    · intro hne
      obtain ⟨q, qs, hqs⟩ := List.exists_cons_of_ne_nil hne
      subst hqs
      rw [read_forces_eq, hs1, hs2]
      have hsplit : pre ++ startLine :: q :: qs =
          (pre ++ [startLine]) ++ (q :: qs) := by simp
      rw [hsplit, force_sum_loop_skip norm (pre.length + 1) none
        (pre ++ [startLine]) (q :: qs) 0 0 (by simp)]
      have hidx : 0 + (pre ++ [startLine]).length = pre.length + 1 := by simp
      rw [hidx]
      simp only [force_sum_loop]
      rw [if_neg (by omega : ¬ pre.length + 1 < pre.length + 1)]
  · intro pre rows post startLine stopLine h1 hstop2 hstop1 hrp1 hrp2 hrows
    have hrows1 : ∀ l ∈ rows, reSearch pattern_1 l = false :=
      fun l hl => hrp1 l (List.mem_append_left _ hl)
    have hrows2 : ∀ l ∈ rows, reSearch pattern_2 l = false :=
      fun l hl => hrp2 l (List.mem_append_left _ hl)
    have hpost1 : ∀ l ∈ post, reSearch pattern_1 l = false :=
      fun l hl => hrp1 l (List.mem_append_right _ hl)
    have hpost2 : ∀ l ∈ post, reSearch pattern_2 l = false :=
      fun l hl => hrp2 l (List.mem_append_right _ hl)
    have hscan : scan_markers (pre ++ startLine :: (rows ++ stopLine :: post))
        0 none none =
        (some (pre.length + 1),
          some ((pre.length : Int) + (rows.length : Int))) := by
      rw [scan_markers_append]
      simp only [scan_markers, h1, if_true]
      rw [scan_markers_append rows (stopLine :: post)]
      rw [scan_markers_skip rows hrows1 hrows2]
      simp only [scan_markers, hstop1, hstop2, Bool.false_eq_true, if_false,
        if_true]
      rw [scan_markers_skip post hpost1 hpost2]
      rw [Prod.mk.injEq]
      constructor
      · rw [Option.some_inj]
        omega
      · rw [Option.some_inj]
        push_cast
        omega
    have hs1 : (scan_markers (pre ++ startLine :: (rows ++ stopLine :: post))
        0 none none).1 = some (pre.length + 1) := by rw [hscan]
    have hs2 : (scan_markers (pre ++ startLine :: (rows ++ stopLine :: post))
        0 none none).2 =
        some ((pre.length : Int) + (rows.length : Int)) := by rw [hscan]
    rw [read_forces_eq, hs1, hs2]
    have hsplit : pre ++ startLine :: (rows ++ stopLine :: post) =
        (pre ++ [startLine]) ++ (rows ++ stopLine :: post) := by simp
    rw [hsplit, force_sum_loop_skip norm (pre.length + 1)
      (some ((pre.length : Int) + (rows.length : Int)))
      (pre ++ [startLine]) (rows ++ stopLine :: post) 0 0 (by simp)]
    have hidx : 0 + (pre ++ [startLine]).length = pre.length + 1 := by simp
    rw [hidx]
    rw [force_sum_loop_rows norm (pre.length + 1)
      ((pre.length : Int) + (rows.length : Int)) stopLine post rows
      (pre.length + 1) 0 (le_refl _) (by push_cast; omega) hrows]
    rw [zero_add]

theorem pyFloat_digit_3 : pyFloat "3" = some 3 := by
  have hd : "3".data = ['3'] := by decide
  rw [pyFloat, hd]
  simp +decide [pyFloatAux, pyStripSign, digitsToNat]

theorem pyFloat_digit_4 : pyFloat "4" = some 4 := by
  have hd : "4".data = ['4'] := by decide
  rw [pyFloat, hd]
  simp +decide [pyFloatAux, pyStripSign, digitsToNat]

theorem pyFloat_digit_0 : pyFloat "0" = some 0 := by
  have hd : "0".data = ['0'] := by decide
  rw [pyFloat, hd]
  simp +decide [pyFloatAux, pyStripSign, digitsToNat]

theorem rowQ_sample : rowQ "1 1 O 3 4 0" = some [3, 4, 0] := by
  have hsplit : (pySplit "1 1 O 3 4 0").drop 3 = ["3", "4", "0"] := by decide
  rw [rowQ, hsplit]
  simp [List.mapM, List.mapM.loop, pyFloat_digit_3, pyFloat_digit_4,
    pyFloat_digit_0]

/-- Witness for the amended C7 at concrete artifacts: a start marker with a
trailing line crashes with `UnboundLocalError`; a well-formed one-row table
returns the row norm over the atom count. -/
theorem read_forces_spec_witness :
    read_forces sampleNorm [pattern_1, "trailing line"] 3 =
      .error .unboundLocal ∧
    read_forces sampleNorm [pattern_1, "1 1 O 3 4 0", pattern_2] 1 =
      .ok 25 := by
  constructor
  · exact ((read_forces_spec sampleNorm 3).1 [] ["trailing line"] pattern_1
      (by decide) (by decide) (by decide)).2 (by simp)
  · have h := (read_forces_spec sampleNorm 1).2 [] ["1 1 O 3 4 0"] []
      pattern_1 pattern_2 (by decide) (by decide) (by decide) (by decide)
      (by decide) (by simp [rowQ_sample])
    have hv : ((["1 1 O 3 4 0"].map
        fun l => sampleNorm ((rowQ l).getD [])).sum / (1 : ℚ)) = 25 := by
      simp [rowQ_sample, sampleNorm]
      norm_num
    rw [hv] at h
    exact h
